import Mathlib

/-!
Verification development for the PCBScrape-CRS repository
(src/pa_recovery_pyqt5.py, src/pa_recovery_standalone.py,
src/scrape_pacert_data.py).

The Python pipeline is shallowly embedded: pandas DataFrames become lists
of records, HTML structure becomes explicit row/cell data, HTTP requests
become oracle functions returning `Option` results, and side effects
(logging, sleeping, page fetches) become an explicit event trace.
-/

namespace PCB

/-! ## String primitives (embedding Python `str` operations)

`str.lower()` / `str.strip()` / `str.replace(old, new)` are modelled
character-list-wise so that all definitions reduce by `decide`.  Python
lowercases the full Unicode range and strips Unicode whitespace; the data
handled by this program (ASCII city names, credential codes, URLs) is
covered exactly by the ASCII behaviour modelled here. -/

/-- Python `str.lower()` (ASCII range, which covers all data in this repo). -/
def strLower (s : String) : String := String.mk (s.data.map Char.toLower)

/-- Python `str.strip()`: drop leading and trailing whitespace. -/
def strStrip (s : String) : String :=
  String.mk (((s.data.dropWhile Char.isWhitespace).reverse.dropWhile
    Char.isWhitespace).reverse)

/-- One pass of Python `str.replace`: replace each non-overlapping occurrence
of `pat`, scanning left to right.  The fuel argument bounds the scan; it is
instantiated with the string length, which suffices because every step
consumes at least one character (the source never calls `replace` with an
empty pattern). -/
def replaceAux (pat repl : List Char) : Nat → List Char → List Char
  | 0, s => s
  | _ + 1, [] => []
  | fuel + 1, c :: cs =>
    if pat ≠ [] ∧ pat.isPrefixOf (c :: cs) then
      repl ++ replaceAux pat repl fuel ((c :: cs).drop pat.length)
    else
      c :: replaceAux pat repl fuel cs

/-- Python `s.replace(pat, repl)`. -/
def strReplace (s pat repl : String) : String :=
  String.mk (replaceAux pat.data repl.data s.data.length s.data)

/-- Python `in` on strings, specialised to character lists:
`containsSub pat l` is true iff `pat` occurs contiguously in `l`.
This embeds `pandas.Series.str.contains(pat)` for the patterns the source
uses ("CRS", "CFRS", "CRSS"), which contain no regex metacharacters, so
regex search coincides with plain substring containment. -/
def containsSub (pat : List Char) : List Char → Bool
  | [] => pat.isEmpty
  | c :: cs => pat.isPrefixOf (c :: cs) || containsSub pat cs

/-! ## Data model

`Record` is one row of the scraped DataFrame built by `scrape_website`
(pa_recovery_pyqt5.py lines 114-123); `MRecord` is a row after the
left-merge with the city→county reference attaches a `County` column. -/

structure Record where
  scrapeOrder : Nat
  name : String
  city : String
  credential : String
  number : String
  issueDate : String
  expDate : String
  status : String
deriving DecidableEq, Repr

structure MRecord where
  scrapeOrder : Nat
  name : String
  city : String
  credential : String
  number : String
  issueDate : String
  expDate : String
  status : String
  county : Option String
deriving DecidableEq, Repr

/-- Attach a county value to a scraped record (the merge step's row output). -/
def withCounty (r : Record) (c : Option String) : MRecord :=
  ⟨r.scrapeOrder, r.name, r.city, r.credential, r.number, r.issueDate,
    r.expDate, r.status, c⟩

/-- The content of a record apart from its scrape-order number:
(name, city, credential, number, issue date, exp date, status). -/
def Record.content (r : Record) :
    String × String × String × String × String × String × String :=
  (r.name, r.city, r.credential, r.number, r.issueDate, r.expDate, r.status)

/-! ## HTML structure for `scrape_website`

A `<td>` cell carries its stripped text and, possibly, a nested
credential table whose body rows are lists of cell texts
(`cert_cols` in the source).  A person row is its list of `<td>` cells. -/

structure Cell where
  text : String
  certRows : Option (List (List String))
deriving DecidableEq, Repr

/-- City normalization applied at scrape time
(pa_recovery_pyqt5.py line 100 / pa_recovery_standalone.py line 73):
`cols[1].get_text(strip=True).replace(", PA", "").strip().lower()`.
The argument is the already-stripped cell text; the pipeline applied to it
is remove-", PA", strip, lower. -/
def scrapeCityNorm (s : String) : String :=
  strLower (strStrip (strReplace s ", PA" ""))

/-- Reference-side city normalization
(`df['City'].str.strip().str.lower()`, pa_recovery_pyqt5.py line 48;
also reused at line 643 on the scraped CITY column). -/
def refCityNorm (s : String) : String := strLower (strStrip s)

/-- The `if len(cert_cols) == 5` test (line 107) together with the five
positional extractions of lines 108-112. -/
def asFiveCells : List String → Option (String × String × String × String × String)
  | [a, b, c, d, e] => some (a, b, c, d, e)
  | _ => none

/-- Parse the rows of one person's nested credential table, threading the
shared scrape-order counter.  Only rows with exactly 5 cells emit a record
(`if len(cert_cols) == 5`, lines 107-124). -/
def parseCertRows (name city : String) :
    List (List String) → Nat → List Record × Nat
  | [], i => ([], i)
  | cells :: rest, i =>
    match asFiveCells cells with
    | some (cred, num, iss, exp, st) =>
      let out := parseCertRows name city rest (i + 1)
      (⟨i, name, city, cred, num, iss, exp, st⟩ :: out.1, out.2)
    | none => parseCertRows name city rest i

/-- Parse one person row (lines 94-124): skip rows with fewer than 3 cells;
otherwise take name from cell 0, normalized city from cell 1, and emit one
record per 5-cell row of the nested credential table of cell 2 (none when
cell 2 has no nested table). -/
def parseRow (row : List Cell) (i : Nat) : List Record × Nat :=
  match row with
  | c0 :: c1 :: c2 :: _ =>
    match c2.certRows with
    | some crs => parseCertRows c0.text (scrapeCityNorm c1.text) crs i
    | none => ([], i)
  | _ => ([], i)

/-- Parse all person rows of one page's results table in order. -/
def parseRows : List (List Cell) → Nat → List Record × Nat
  | [], i => ([], i)
  | r :: rest, i =>
    let first := parseRow r i
    let restOut := parseRows rest first.2
    (first.1 ++ restOut.1, restOut.2)

/-! ## Event trace

The worker's observable effects: log lines (`output_lines.append` and the
`c.line` / progress emissions carry the same message text and are modelled
as one `logLine` event), HTTP page fetches, and `time.sleep` calls. -/

inductive Event where
  | logLine (s : String)
  | pageFetch (tag : String) (page : Nat)
  | sleep (seconds : Nat)
deriving DecidableEq, Repr

/-! ## `scrape_website` (pa_recovery_pyqt5.py lines 72-127)

The page fetch plus HTML-table location is modelled as an oracle
`fetch : Nat → Option (Option (List (List Cell)))`:
`none` = the request raised (`except: ... continue`),
`some none` = request succeeded but the uniquely-classed results table is
absent (`if not table: continue`), `some (some rows)` = the table's
`tbody > tr` rows.  Note that on both `continue` paths the trailing
`time.sleep(1)` is skipped, exactly as in the source. -/

def scrapeLoop (baseUrl tag : String) (totalPages : Nat)
    (fetch : Nat → Option (Option (List (List Cell)))) :
    List Nat → Nat → List Record × Nat × List Event
  | [], i => ([], i, [])
  | p :: ps, i =>
    let scanMsg := Event.logLine ("🔍 [" ++ tag ++ "] Scraping page " ++
      toString (p + 1) ++ " of " ++ toString totalPages)
    match fetch p with
    | none =>
      let rest := scrapeLoop baseUrl tag totalPages fetch ps i
      (rest.1, rest.2.1,
        scanMsg :: Event.pageFetch tag p ::
          Event.logLine ("⚠️ [" ++ tag ++ "] Failed to load " ++ baseUrl ++
            "&page=" ++ toString p) :: rest.2.2)
    | some none =>
      let rest := scrapeLoop baseUrl tag totalPages fetch ps i
      (rest.1, rest.2.1, scanMsg :: Event.pageFetch tag p :: rest.2.2)
    | some (some rows) =>
      let pr := parseRows rows i
      let rest := scrapeLoop baseUrl tag totalPages fetch ps pr.2
      (pr.1 ++ rest.1, rest.2.1,
        scanMsg :: Event.pageFetch tag p :: Event.sleep 1 :: rest.2.2)

/-- `scrape_website(base_url, total_pages, ...)`: run the page loop over
pages `0 .. total_pages - 1` with the scrape-order counter starting at 0;
returns the accumulated records and the event trace. -/
def scrapeWebsite (baseUrl tag : String) (totalPages : Nat)
    (fetch : Nat → Option (Option (List (List Cell)))) :
    List Record × List Event :=
  let out := scrapeLoop baseUrl tag totalPages fetch (List.range totalPages) 0
  (out.1, out.2.2)

/-- The scrape-order-independent content a single page's fetch result
contributes: empty for a failed fetch or a missing table. -/
def pageContent (res : Option (Option (List (List Cell)))) :
    List (String × String × String × String × String × String × String) :=
  match res with
  | some (some rows) => (parseRows rows 0).1.map Record.content
  | _ => []

/-! ## Constants (pa_recovery_pyqt5.py lines 34-40) -/

def CREDENTIALS : List String := ["CRS", "CFRS", "CRSS"]

def SELECTED_COUNTIES : List String :=
  ["Philadelphia", "Berks", "Bucks", "Chester",
   "Delaware", "Lancaster", "Montgomery", "Schuylkill"]

def REGION_4_COUNTIES : List String :=
  SELECTED_COUNTIES.filter (fun c => c ≠ "Philadelphia")

def DELAY_BETWEEN_CREDENTIALS : Nat := 10

/-! ## Reference loader and merge pipeline -/

/-- `get_city_county_df` (lines 43-53): `none` models any network/parse
failure (the `except` branch returns an empty DataFrame); on success the
`City` column is stripped and lowercased. -/
def getCityCountyDf : Option (List (String × String)) → List (String × String)
  | none => []
  | some rows => rows.map (fun p => (refCityNorm p.1, p.2))

/-- Line 643: `df['CITY'] = df['CITY'].str.strip().str.lower()`. -/
def normalizeCityCol (recs : List Record) : List Record :=
  recs.map (fun r => { r with city := refCityNorm r.city })

/-- Line 644: `df.merge(city_county_df, how='left', left_on='CITY',
right_on='City')` followed by dropping the `City` column: a left join —
each left row pairs with every matching reference row, and a row with no
match is kept once with a null county. -/
def leftJoinCounty (ref : List (String × String)) (recs : List Record) :
    List MRecord :=
  recs.flatMap (fun r =>
    match ref.filter (fun p => p.1 == r.city) with
    | [] => [withCounty r none]
    | ms => ms.map (fun p => withCounty r (some p.2)))

/-- Line 647: `df = df[df['CREDENTIAL'].str.contains(cred, na=False)]`.
All credential values come from `get_text` and are strings (never NaN), so
`na=False` has no effect in the model. -/
def credFilter (cred : String) (ms : List MRecord) : List MRecord :=
  ms.filter (fun m => containsSub cred.data m.credential.data)

/-- Line 648: `df.sort_values(by='SCRAPE ORDER', inplace=True)`, modelled
as a stable sort on the scrape-order key. -/
def sortByOrder (ms : List MRecord) : List MRecord :=
  List.insertionSort (fun a b => a.scrapeOrder ≤ b.scrapeOrder) ms

/-- Lines 643-648: a category's merged, category-filtered,
scrape-order-sorted dataset (`all_cred_data[cred]`). -/
def processCred (cred : String) (ref : List (String × String))
    (recs : List Record) : List MRecord :=
  sortByOrder (credFilter cred (leftJoinCounty ref (normalizeCityCol recs)))

/-- First-match lookup in the reference list (what the left join reduces to
when the reference's city keys are duplicate-free). -/
def lookupCounty (ref : List (String × String)) (key : String) :
    Option String :=
  match ref.find? (fun p => p.1 == key) with
  | some p => some p.2
  | none => none

/-- Line 651: `df[df['County'].isin(SELECTED_COUNTIES)]` — `isin` is false
for a null county, so unmatched rows drop out of the county subset. -/
def selectedCountyFilter (ds : List MRecord) : List MRecord :=
  ds.filter (fun m =>
    match m.county with
    | some c => SELECTED_COUNTIES.contains c
    | none => false)

/-! ## `scrape_worker` (pa_recovery_pyqt5.py lines 614-679)

The multi-category orchestrator.  The Excel/pickle writes at lines 658-673
are I/O sinks; the `result` field carries the per-category statewide and
selected-county datasets those sinks serialize, with `none` modelling the
`done((None, None))` abort signal. -/

structure Env where
  refRaw : Option (List (String × String))
  totalPages : String → Nat
  fetch : String → Nat → Option (Option (List (List Cell)))

/-- Line 632: the category URL. -/
def baseUrlOf (cred : String) : String :=
  "https://www.pacertboard.org/credential-search?type=" ++ strLower cred

/-- One iteration of the credential loop (lines 630-656).  When the raw
scrape is empty the code logs and `continue`s — skipping the merge, the
dataset insertion, and the inter-credential cooldown.  Otherwise the
dataset is merged/filtered/sorted and, for every credential but the last,
the 10-second cooldown sleep runs. -/
def credStep (env : Env) (ref : List (String × String)) (idx : Nat)
    (cred : String) :
    Option (String × List MRecord × List MRecord) × List Event :=
  let hdr := Event.logLine ("=== Scraping credential: " ++ cred ++ " (" ++
    toString (idx + 1) ++ "/3) ===")
  let sw := scrapeWebsite (baseUrlOf cred) cred (env.totalPages cred)
    (env.fetch cred)
  if sw.1.isEmpty then
    (none, hdr :: sw.2 ++ [Event.logLine ("⚠️ No data found for " ++ cred)])
  else
    let ds := processCred cred ref sw.1
    let tail :=
      if idx < CREDENTIALS.length - 1 then
        [Event.logLine ("⏳ Waiting " ++ toString DELAY_BETWEEN_CREDENTIALS ++
           "s before next credential scrape..."),
         Event.sleep DELAY_BETWEEN_CREDENTIALS]
      else []
    (some (cred, ds, selectedCountyFilter ds), hdr :: sw.2 ++ tail)

structure WorkerOut where
  result : Option (List (String × List MRecord × List MRecord))
  events : List Event
deriving DecidableEq, Repr

/-- The worker: load the reference table; abort with `done((None, None))`
when it is empty; otherwise run every credential in declared order and
return the per-category datasets. -/
def scrapeWorker (env : Env) : WorkerOut :=
  let start := Event.logLine "--- Starting Combined Scrape for CRS, CFRS, CRSS ---"
  let ref := getCityCountyDf env.refRaw
  if ref.isEmpty then
    ⟨none, [start, Event.logLine "❌ City-county data is required. Exiting."]⟩
  else
    let steps := CREDENTIALS.enum.map (fun ic => credStep env ref ic.1 ic.2)
    ⟨some (steps.filterMap Prod.fst), start :: (steps.map Prod.snd).flatten⟩

/-! ## Report aggregator (`ReportWindow.build_report_summary`, lines 177-220)

Dates are (year, month) pairs; the `datetime` values at play always have
day 1, so comparison and month arithmetic reduce to the pair. -/

/-- Line 179: `first_month = datetime(now.year-1, 7, 1) if now.month >= 7
else datetime(now.year-2, 7, 1)`. -/
def first_month (y m : Int) : Int × Int :=
  if 7 ≤ m then (y - 1, 7) else (y - 2, 7)

/-- `dt -= relativedelta(months=1)` on a day-1 datetime. -/
def prevMonth (p : Int × Int) : Int × Int :=
  if p.2 = 1 then (p.1 - 1, 12) else (p.1, p.2 - 1)

/-- Linearized month position, for measuring window lengths. -/
def monthIndex (p : Int × Int) : Int := 12 * p.1 + p.2

/-- `datetime` comparison `a <= b` on day-1 dates: lexicographic on
(year, month). -/
def dateLe (a b : Int × Int) : Bool :=
  decide (a.1 < b.1 ∨ (a.1 = b.1 ∧ a.2 ≤ b.2))

/-- Lines 181-184: `while dt >= first_month: months.append(dt); dt -= 1
month`.  The fuel argument bounds the iteration count; `monthsList`
instantiates it with the exact window length, which is what the loop runs
for calendar-valid inputs (month in 1..12). -/
def monthsLoop (first : Int × Int) : Nat → Int × Int → List (Int × Int)
  | 0, _ => []
  | fuel + 1, dt =>
    if dateLe first dt then dt :: monthsLoop first fuel (prevMonth dt)
    else []

/-- The report's month window for a current date in year `y`, month `m`:
one entry per month, newest first, ending at `first_month`. -/
def monthsList (y m : Int) : List (Int × Int) :=
  monthsLoop (first_month y m)
    ((monthIndex (y, m) + 1 - monthIndex (first_month y m)).toNat) (y, m)

/-- Going back `k` months from a date. -/
def prevIter : Nat → Int × Int → Int × Int
  | 0, p => p
  | k + 1, p => prevIter k (prevMonth p)

/-- Lines 211-215: `issued = pd.to_datetime(dff["ISSUE DATE"],
errors="coerce")` then `((issued.dt.year == m.year) & (issued.dt.month ==
m.month)).sum()`.  `parse` models `pd.to_datetime` with `errors="coerce"`:
`none` is NaT, whose year/month comparisons are false for every month, so
an unparsable date matches no bucket and is never replaced by a default. -/
def countIssuedIn (parse : String → Option (Int × Int)) (recs : List MRecord)
    (ym : Int × Int) : Nat :=
  (recs.filter (fun r =>
    match parse r.issueDate with
    | some p => decide (p = ym)
    | none => false)).length

/-- Same rule for `EXP DATE` (lines 212, 214, 216). -/
def countExpiredIn (parse : String → Option (Int × Int)) (recs : List MRecord)
    (ym : Int × Int) : Nat :=
  (recs.filter (fun r =>
    match parse r.expDate with
    | some p => decide (p = ym)
    | none => false)).length

/-- Line 205: `tab_info["total"][cred] = len(dff)` — the unfiltered total
count of a geography-sliced dataset, computed without any date parsing. -/
def totalCount (recs : List MRecord) : Nat := recs.length

/-! ## `scrape_pacert_data` (src/scrape_pacert_data.py)

The standalone script's scraper.  Its pagination is an unbounded
`while True` that terminates via `break` (request failure, no main rows,
or no next-page link); the fuel argument bounds the number of observed
iterations. -/

structure PCred where
  ctype : Option String
  cnumber : Option String
  cissue : Option String
  cexpire : Option String
  cstatus : Option String
deriving DecidableEq, Repr

structure PRow where
  nameTd : Option String
  locTd : Option String
  credTable : Option (List PCred)
deriving DecidableEq, Repr

structure PPage where
  mainRows : List PRow
  hasNext : Bool
deriving DecidableEq, Repr

structure PRecord where
  pname : String
  plocation : String
  ptype : String
  pnumber : String
  pissue : String
  pexpire : String
  pstatus : String
deriving DecidableEq, Repr

/-- Lines 37-73: records emitted for one main row — one per credential
sub-row with "N/A" defaults for missing cells, or a single all-"N/A"
record when the row has no credential table. -/
def pacertRowRecords (row : PRow) : List PRecord :=
  let name := row.nameTd.getD "N/A"
  let loc := row.locTd.getD "N/A"
  match row.credTable with
  | some creds =>
    creds.map (fun c =>
      ⟨name, loc, c.ctype.getD "N/A", c.cnumber.getD "N/A",
        c.cissue.getD "N/A", c.cexpire.getD "N/A", c.cstatus.getD "N/A"⟩)
  | none => [⟨name, loc, "N/A", "N/A", "N/A", "N/A", "N/A"⟩]

/-- Lines 18-82: the pagination loop.  A request failure on the current
page `break`s out of the loop immediately, returning only the records
accumulated from earlier pages. -/
def pacertLoop (fetch : Nat → Option PPage) : Nat → Nat → List PRecord
  | 0, _ => []
  | fuel + 1, page =>
    match fetch page with
    | none => []
    | some pg =>
      if pg.mainRows.isEmpty then []
      else
        let recs := pg.mainRows.flatMap pacertRowRecords
        if pg.hasNext then recs ++ pacertLoop fetch fuel (page + 1)
        else recs

/-- `scrape_pacert_data(base_url)`: start at page 0. -/
def scrapePacertData (fetch : Nat → Option PPage) (fuel : Nat) :
    List PRecord :=
  pacertLoop fetch fuel 0

/-! ## Concrete fixtures used by witnesses and counterexamples -/

/-- A one-person results page: three cells, the third holding a nested
credential table with one 5-cell row. -/
def samplePage : List (List Cell) :=
  [[⟨"Alice Smith", none⟩, ⟨"Philadelphia, PA", none⟩,
    ⟨"", some [["CRS", "12345", "1/1/2020", "1/1/2022", "Active"]]⟩]]

/-- Reference load failed (network error ⇒ empty DataFrame). -/
def envRefFail : Env := ⟨none, fun _ => 1, fun _ _ => none⟩

/-- Reference loads, but every page fetch of every credential fails, so
every credential yields zero records. -/
def envNoData : Env :=
  ⟨some [("Philadelphia", "Philadelphia")], fun _ => 1, fun _ _ => none⟩

/-- Reference loads and the CRS scrape returns one record; the other
credential scrapes fail. -/
def envCooldown : Env :=
  ⟨some [("philadelphia", "Philadelphia")], fun _ => 1,
    fun cred p => if cred = "CRS" ∧ p = 0 then some (some samplePage) else none⟩

/-- A two-page fetch oracle whose page 0 request fails while page 1
succeeds with `samplePage`. -/
def fetchPageZeroFails : Nat → Option (Option (List (List Cell))) :=
  fun p => if p = 0 then none else some (some samplePage)

/-- Fetch oracle for the standalone script: page 0 succeeds (with a next
link), the page 1 request fails, page 2 would succeed with one record. -/
def pacertFetchCE : Nat → Option PPage :=
  fun p =>
    if p = 0 then
      some ⟨[⟨some "Alice", some "Philadelphia, PA",
        some [⟨some "CRS", some "1", some "1/1/2020", some "1/1/2022",
          some "Active"⟩]⟩], true⟩
    else if p = 2 then
      some ⟨[⟨some "Bob", some "Reading, PA",
        some [⟨some "CRS", some "2", some "2/1/2020", some "2/1/2022",
          some "Active"⟩]⟩], false⟩
    else none

/-! ## Helper lemmas: substring containment -/

theorem containsSub_iff (pat : List Char) :
    ∀ l : List Char, containsSub pat l = true ↔ pat <:+: l := by
  intro l
  induction l with
  | nil => simp [containsSub, List.isEmpty_iff]
  | cons c cs ih => simp [containsSub, List.infix_cons_iff, ih]

/-! ## Helper lemmas: scrape-order numbering

The emitted records of one category scrape carry consecutive scrape-order
values continuing across rows and pages. -/

theorem parseCertRows_spec (name city : String) :
    ∀ (crs : List (List String)) (i : Nat),
      (parseCertRows name city crs i).1.map (fun r => r.scrapeOrder) =
          List.range' i (parseCertRows name city crs i).1.length
        ∧ (parseCertRows name city crs i).2 =
          i + (parseCertRows name city crs i).1.length := by
  intro crs
  induction crs with
  | nil => intro i; simp [parseCertRows]
  | cons cells rest ih =>
    intro i
    cases h : asFiveCells cells with
    | none => simpa only [parseCertRows, h] using ih i
    | some t =>
      obtain ⟨cr, nu, iss, ex, st⟩ := t
      have h1 := (ih (i + 1)).1
      have h2 := (ih (i + 1)).2
      refine ⟨?_, ?_⟩
      · simp only [parseCertRows, h, List.map_cons, List.length_cons,
          List.range'_succ, h1]
      · simp only [parseCertRows, h, List.length_cons, h2]
        omega

theorem parseRow_spec (row : List Cell) (i : Nat) :
    (parseRow row i).1.map (fun r => r.scrapeOrder) =
        List.range' i (parseRow row i).1.length
      ∧ (parseRow row i).2 = i + (parseRow row i).1.length := by
  match row with
  | [] => simp [parseRow]
  | [c0] => simp [parseRow]
  | [c0, c1] => simp [parseRow]
  | c0 :: c1 :: c2 :: rest =>
    cases h : c2.certRows with
    | none => simp [parseRow, h]
    | some crs =>
      simpa only [parseRow, h] using
        parseCertRows_spec c0.text (scrapeCityNorm c1.text) crs i

theorem parseRows_spec :
    ∀ (rows : List (List Cell)) (i : Nat),
      (parseRows rows i).1.map (fun r => r.scrapeOrder) =
          List.range' i (parseRows rows i).1.length
        ∧ (parseRows rows i).2 = i + (parseRows rows i).1.length := by
  intro rows
  induction rows with
  | nil => intro i; simp [parseRows]
  | cons r rest ih =>
    intro i
    have hr := parseRow_spec r i
    have hrest := ih (parseRow r i).2
    refine ⟨?_, ?_⟩
    · simp only [parseRows, List.map_append, List.length_append]
      rw [hr.1, hrest.1, hr.2, List.range'_append_1, Nat.add_comm]
    · simp only [parseRows, List.length_append]
      rw [hrest.2, hr.2]
      omega

theorem scrapeLoop_spec (b t : String) (N : Nat)
    (f : Nat → Option (Option (List (List Cell)))) :
    ∀ (pages : List Nat) (i : Nat),
      (scrapeLoop b t N f pages i).1.map (fun r => r.scrapeOrder) =
          List.range' i (scrapeLoop b t N f pages i).1.length
        ∧ (scrapeLoop b t N f pages i).2.1 =
          i + (scrapeLoop b t N f pages i).1.length := by
  intro pages
  induction pages with
  | nil => intro i; simp [scrapeLoop]
  | cons p ps ih =>
    intro i
    cases hf : f p with
    | none => simpa only [scrapeLoop, hf] using ih i
    | some o =>
      cases o with
      | none => simpa only [scrapeLoop, hf] using ih i
      | some rows =>
        have hpr := parseRows_spec rows i
        have hrest := ih (parseRows rows i).2
        refine ⟨?_, ?_⟩
        · simp only [scrapeLoop, hf, List.map_append, List.length_append]
          rw [hpr.1, hrest.1, hpr.2, List.range'_append_1, Nat.add_comm]
        · simp only [scrapeLoop, hf, List.length_append]
          rw [hrest.2, hpr.2]
          omega

theorem scrapeWebsite_orders (b t : String) (N : Nat)
    (f : Nat → Option (Option (List (List Cell)))) :
    (scrapeWebsite b t N f).1.map (fun r => r.scrapeOrder) =
      List.range (scrapeWebsite b t N f).1.length := by
  have h := (scrapeLoop_spec b t N f (List.range N) 0).1
  simpa only [scrapeWebsite, List.range_eq_range'] using h

/-! ## Helper lemmas: record content is independent of the counter -/

theorem parseCertRows_content (name city : String) :
    ∀ (crs : List (List String)) (i j : Nat),
      (parseCertRows name city crs i).1.map Record.content =
        (parseCertRows name city crs j).1.map Record.content := by
  intro crs
  induction crs with
  | nil => intro i j; simp [parseCertRows]
  | cons cells rest ih =>
    intro i j
    cases h : asFiveCells cells with
    | none => simpa only [parseCertRows, h] using ih i j
    | some t =>
      obtain ⟨cr, nu, iss, ex, st⟩ := t
      simp only [parseCertRows, h, List.map_cons, Record.content]
      rw [ih (i + 1) (j + 1)]

theorem parseRow_content (row : List Cell) (i j : Nat) :
    (parseRow row i).1.map Record.content =
      (parseRow row j).1.map Record.content := by
  match row with
  | [] => rfl
  | [c0] => rfl
  | [c0, c1] => rfl
  | c0 :: c1 :: c2 :: rest =>
    cases h : c2.certRows with
    | none => simp [parseRow, h]
    | some crs =>
      simpa only [parseRow, h] using
        parseCertRows_content c0.text (scrapeCityNorm c1.text) crs i j

theorem parseRows_content :
    ∀ (rows : List (List Cell)) (i j : Nat),
      (parseRows rows i).1.map Record.content =
        (parseRows rows j).1.map Record.content := by
  intro rows
  induction rows with
  | nil => intro i j; rfl
  | cons r rest ih =>
    intro i j
    simp only [parseRows, List.map_append]
    rw [parseRow_content r i j, ih (parseRow r i).2 (parseRow r j).2]

theorem scrapeLoop_content (b t : String) (N : Nat)
    (f : Nat → Option (Option (List (List Cell)))) :
    ∀ (pages : List Nat) (i : Nat),
      (scrapeLoop b t N f pages i).1.map Record.content =
        pages.flatMap (fun q => pageContent (f q)) := by
  intro pages
  induction pages with
  | nil => intro i; simp [scrapeLoop]
  | cons p ps ih =>
    intro i
    cases hf : f p with
    | none => simp only [scrapeLoop, hf, List.flatMap_cons, pageContent]
              rw [ih i]; rfl
    | some o =>
      cases o with
      | none => simp only [scrapeLoop, hf, List.flatMap_cons, pageContent]
                rw [ih i]; rfl
      | some rows =>
        simp only [scrapeLoop, hf, List.flatMap_cons, pageContent,
          List.map_append]
        rw [parseRows_content rows i 0, ih (parseRows rows i).2]
        rfl

/-! ## Helper lemmas: failure logging and fetch tagging -/

theorem scrapeLoop_failLog (b t : String) (N : Nat)
    (f : Nat → Option (Option (List (List Cell)))) :
    ∀ (pages : List Nat) (i p : Nat), p ∈ pages → f p = none →
      Event.logLine ("⚠️ [" ++ t ++ "] Failed to load " ++ b ++ "&page=" ++
          toString p) ∈ (scrapeLoop b t N f pages i).2.2 := by
  intro pages
  induction pages with
  | nil => intro i p hp; cases hp
  | cons q ps ih =>
    intro i p hp hf
    rcases List.mem_cons.mp hp with he | hm
    · subst he
      simp [scrapeLoop, hf]
    · cases hq : f q with
      | none => simp only [scrapeLoop, hq, List.mem_cons]
                exact Or.inr (Or.inr (Or.inr (ih i p hm hf)))
      | some o =>
        cases o with
        | none => simp only [scrapeLoop, hq, List.mem_cons]
                  exact Or.inr (Or.inr (ih i p hm hf))
        | some rows =>
          simp only [scrapeLoop, hq, List.mem_cons]
          exact Or.inr (Or.inr (Or.inr (ih (parseRows rows i).2 p hm hf)))

theorem flatMap_piece_infix {α β : Type} (f : α → List β) :
    ∀ (l : List α) (q : α), q ∈ l → f q <:+: l.flatMap f := by
  intro l
  induction l with
  | nil => intro q h; cases h
  | cons a as ih =>
    intro q hq
    rcases List.mem_cons.mp hq with he | hm
    · subst he
      exact ⟨[], as.flatMap f, by simp⟩
    · obtain ⟨s, u, hsu⟩ := ih q hm
      exact ⟨f a ++ s, u, by rw [List.flatMap_cons, ← hsu]; simp⟩

theorem scrapeLoop_tag (b t : String) (N : Nat)
    (f : Nat → Option (Option (List (List Cell)))) :
    ∀ (pages : List Nat) (i : Nat) (c : String) (q : Nat),
      Event.pageFetch c q ∈ (scrapeLoop b t N f pages i).2.2 → c = t := by
  intro pages
  induction pages with
  | nil => intro i c q h; simp [scrapeLoop] at h
  | cons p ps ih =>
    intro i c q h
    cases hf : f p with
    | none =>
      simp only [scrapeLoop, hf, List.mem_cons] at h
      rcases h with h | h | h | h
      · exact Event.noConfusion h
      · injection h with h1 h2
      · exact Event.noConfusion h
      · exact ih i c q h
    | some o =>
      cases o with
      | none =>
        simp only [scrapeLoop, hf, List.mem_cons] at h
        rcases h with h | h | h
        · exact Event.noConfusion h
        · injection h with h1 h2
        · exact ih i c q h
      | some rows =>
        simp only [scrapeLoop, hf, List.mem_cons] at h
        rcases h with h | h | h | h
        · exact Event.noConfusion h
        · injection h with h1 h2
        · exact Event.noConfusion h
        · exact ih (parseRows rows i).2 c q h

theorem scrapeWebsite_tag (b t : String) (N : Nat)
    (f : Nat → Option (Option (List (List Cell)))) (c : String) (q : Nat)
    (h : Event.pageFetch c q ∈ (scrapeWebsite b t N f).2) : c = t :=
  scrapeLoop_tag b t N f (List.range N) 0 c q h

theorem credStep_tag (env : Env) (ref : List (String × String)) (idx : Nat)
    (cred : String) (c : String) (q : Nat)
    (h : Event.pageFetch c q ∈ (credStep env ref idx cred).2) : c = cred := by
  unfold credStep at h
  by_cases he : (scrapeWebsite (baseUrlOf cred) cred (env.totalPages cred)
      (env.fetch cred)).1.isEmpty
  · rw [if_pos he] at h
    rcases List.mem_append.mp h with h2 | h2
    · rcases List.mem_cons.mp h2 with h3 | h3
      · exact Event.noConfusion h3
      · exact scrapeWebsite_tag _ _ _ _ c q h3
    · rcases List.mem_cons.mp h2 with h3 | h3
      · exact Event.noConfusion h3
      · exact absurd h3 (List.not_mem_nil _)
  · rw [if_neg he] at h
    rcases List.mem_append.mp h with h2 | h2
    · rcases List.mem_cons.mp h2 with h3 | h3
      · exact Event.noConfusion h3
      · exact scrapeWebsite_tag _ _ _ _ c q h3
    · by_cases hidx : idx < CREDENTIALS.length - 1
      · rw [if_pos hidx] at h2
        rcases List.mem_cons.mp h2 with h3 | h3
        · exact Event.noConfusion h3
        · rcases List.mem_cons.mp h3 with h4 | h4
          · exact Event.noConfusion h4
          · exact absurd h4 (List.not_mem_nil _)
      · rw [if_neg hidx] at h2
        exact absurd h2 (List.not_mem_nil _)

/-! ## Helper lemmas: the left join under a duplicate-free reference -/

theorem filter_key_nil (ref : List (String × String)) (key : String)
    (h : key ∉ ref.map Prod.fst) :
    ref.filter (fun p => p.1 == key) = [] := by
  rw [List.filter_eq_nil_iff]
  intro a ha hak
  exact h (List.mem_map.mpr ⟨a, ha, by simpa using hak⟩)

theorem lookupCounty_none (ref : List (String × String)) (key : String)
    (h : ∀ c, (key, c) ∉ ref) : lookupCounty ref key = none := by
  unfold lookupCounty
  have hf : ref.find? (fun p => p.1 == key) = none := by
    rw [List.find?_eq_none]
    rintro ⟨k, c⟩ hkc hbeq
    have hk : k = key := by simpa using hbeq
    subst hk
    exact h c hkc
  rw [hf]

/-- Under duplicate-free keys, filtering the reference on a key gives either
nothing (and `lookupCounty` is `none`) or exactly the one matching pair
(and `lookupCounty` is its county). -/
theorem joinOne_eq (ref : List (String × String)) (key : String)
    (hnd : (ref.map Prod.fst).Nodup) :
    (ref.filter (fun p => p.1 == key) = [] ∧ lookupCounty ref key = none) ∨
    (∃ c, ref.filter (fun p => p.1 == key) = [(key, c)] ∧
      lookupCounty ref key = some c) := by
  induction ref with
  | nil => exact Or.inl ⟨rfl, rfl⟩
  | cons p rest ih =>
    obtain ⟨k1, c1⟩ := p
    have hnd1 : k1 ∉ rest.map Prod.fst ∧ (rest.map Prod.fst).Nodup := by
      simpa [List.nodup_cons] using hnd
    by_cases hkk : k1 = key
    · subst hkk
      refine Or.inr ⟨c1, ?_, ?_⟩
      · rw [List.filter_cons_of_pos (by simp)]
        rw [filter_key_nil rest k1 hnd1.1]
      · unfold lookupCounty
        rw [List.find?_cons_of_pos _ (by simp)]
    · have hres := ih hnd1.2
      have hstep : ((k1, c1).1 == key) = false := by simp [hkk]
      rcases hres with ⟨h1, h2⟩ | ⟨c, h1, h2⟩
      · refine Or.inl ⟨?_, ?_⟩
        · rw [List.filter_cons_of_neg (by simp [hkk])]
          exact h1
        · unfold lookupCounty at h2 ⊢
          rw [List.find?_cons_of_neg _ (by simp [hkk])]
          exact h2
      · refine Or.inr ⟨c, ?_, ?_⟩
        · rw [List.filter_cons_of_neg (by simp [hkk])]
          exact h1
        · unfold lookupCounty at h2 ⊢
          rw [List.find?_cons_of_neg _ (by simp [hkk])]
          exact h2

theorem lookupCounty_some (ref : List (String × String)) (k c : String)
    (hnd : (ref.map Prod.fst).Nodup) (hm : (k, c) ∈ ref) :
    lookupCounty ref k = some c := by
  have hmem : (k, c) ∈ ref.filter (fun p => p.1 == k) :=
    List.mem_filter.mpr ⟨hm, by simp⟩
  rcases joinOne_eq ref k hnd with ⟨h1, _⟩ | ⟨c1, h1, h2⟩
  · rw [h1] at hmem
    cases hmem
  · rw [h1] at hmem
    have heq := List.mem_singleton.mp hmem
    injection heq with hk hc
    rw [h2, hc]

/-- Under duplicate-free keys the pandas left join is one output row per
input row, in input order, carrying the first-match lookup. -/
theorem leftJoinCounty_eq_map (ref : List (String × String))
    (recs : List Record) (hnd : (ref.map Prod.fst).Nodup) :
    leftJoinCounty ref recs =
      recs.map (fun r => withCounty r (lookupCounty ref r.city)) := by
  induction recs with
  | nil => rfl
  | cons r rest ih =>
    simp only [leftJoinCounty, List.flatMap_cons, List.map_cons] at ih ⊢
    rw [ih]
    rcases joinOne_eq ref r.city hnd with ⟨h1, h2⟩ | ⟨c, h1, h2⟩
    · rw [h1, h2]
      rfl
    · rw [h1, h2]
      rfl

/-! ## Helper lemmas: sorting an already-sorted dataset -/

theorem sortByOrder_sorted_eq (ms : List MRecord)
    (h : ms.Pairwise (fun a b => a.scrapeOrder ≤ b.scrapeOrder)) :
    sortByOrder ms = ms :=
  List.Sorted.insertionSort_eq h

theorem mem_processCred_iff (cred : String) (ref : List (String × String))
    (recs : List Record) (m : MRecord) :
    m ∈ processCred cred ref recs ↔
      m ∈ credFilter cred (leftJoinCounty ref (normalizeCityCol recs)) :=
  (List.perm_insertionSort _ _).mem_iff

/-! ## Helper lemmas: the report month window -/

theorem monthIndex_prevMonth (p : Int × Int) :
    monthIndex (prevMonth p) = monthIndex p - 1 := by
  unfold prevMonth monthIndex
  by_cases h : p.2 = 1 <;> simp [h] <;> omega

theorem prevMonth_range (p : Int × Int) (h1 : 1 ≤ p.2) (h2 : p.2 ≤ 12) :
    1 ≤ (prevMonth p).2 ∧ (prevMonth p).2 ≤ 12 := by
  unfold prevMonth
  by_cases h : p.2 = 1
  · simp [h]
  · simp [h]
    omega

theorem dateLe_iff (a b : Int × Int) (ha1 : 1 ≤ a.2) (ha2 : a.2 ≤ 12)
    (hb1 : 1 ≤ b.2) (hb2 : b.2 ≤ 12) :
    dateLe a b = true ↔ monthIndex a ≤ monthIndex b := by
  unfold dateLe monthIndex
  rw [decide_eq_true_iff]
  omega

theorem prevIter_range (k : Nat) :
    ∀ p : Int × Int, 1 ≤ p.2 → p.2 ≤ 12 →
      1 ≤ (prevIter k p).2 ∧ (prevIter k p).2 ≤ 12 := by
  induction k with
  | zero => intro p h1 h2; exact ⟨h1, h2⟩
  | succ n ih =>
    intro p h1 h2
    have hp := prevMonth_range p h1 h2
    exact ih (prevMonth p) hp.1 hp.2

theorem monthIndex_prevIter (k : Nat) :
    ∀ p : Int × Int, monthIndex (prevIter k p) = monthIndex p - k := by
  induction k with
  | zero => intro p; simp [prevIter]
  | succ n ih =>
    intro p
    have hstep : prevIter (n + 1) p = prevIter n (prevMonth p) := rfl
    rw [hstep, ih (prevMonth p), monthIndex_prevMonth]
    omega

theorem monthsLoop_eq (first : Int × Int) (hf1 : 1 ≤ first.2)
    (hf2 : first.2 ≤ 12) :
    ∀ (fuel : Nat) (dt : Int × Int), 1 ≤ dt.2 → dt.2 ≤ 12 →
      fuel = (monthIndex dt + 1 - monthIndex first).toNat →
      monthsLoop first fuel dt =
        (List.range fuel).map (fun k => prevIter k dt) := by
  intro fuel
  induction fuel with
  | zero => intro dt h1 h2 hfuel; simp [monthsLoop]
  | succ n ih =>
    intro dt h1 h2 hfuel
    have hle : monthIndex first ≤ monthIndex dt := by omega
    have hcond : dateLe first dt = true :=
      (dateLe_iff first dt hf1 hf2 h1 h2).mpr hle
    have hpm := prevMonth_range dt h1 h2
    have hn : n = (monthIndex (prevMonth dt) + 1 - monthIndex first).toNat := by
      rw [monthIndex_prevMonth]
      omega
    show (if dateLe first dt then
        dt :: monthsLoop first n (prevMonth dt) else []) =
      (List.range (n + 1)).map (fun k => prevIter k dt)
    rw [if_pos hcond, ih (prevMonth dt) hpm.1 hpm.2 hn,
      List.range_succ_eq_map, List.map_cons, List.map_map]
    rfl

theorem first_month_snd (y m : Int) : (first_month y m).2 = 7 := by
  unfold first_month
  by_cases h : 7 ≤ m <;> simp [h]

theorem monthIndex_first_le (y m : Int) (h1 : 1 ≤ m) :
    monthIndex (first_month y m) ≤ monthIndex (y, m) := by
  unfold first_month monthIndex
  by_cases h : 7 ≤ m <;> simp [h] <;> omega

theorem monthIndex_inj (p q : Int × Int) (hp1 : 1 ≤ p.2) (hp2 : p.2 ≤ 12)
    (hq1 : 1 ≤ q.2) (hq2 : q.2 ≤ 12) (h : monthIndex p = monthIndex q) :
    p = q := by
  rcases p with ⟨a, b⟩
  rcases q with ⟨c, d⟩
  have hb1 : 1 ≤ b := hp1
  have hb2 : b ≤ 12 := hp2
  have hd1 : 1 ≤ d := hq1
  have hd2 : d ≤ 12 := hq2
  have hlin : 12 * a + b = 12 * c + d := h
  have hac : a = c := by omega
  have hbd : b = d := by omega
  rw [hac, hbd]

/-! ## Helper lemmas: merge/filter/sort leave numbering and order intact -/

theorem processCred_preserves (cred : String) (ref : List (String × String))
    (recs : List Record) (hnd : (ref.map Prod.fst).Nodup)
    (h1 : recs.map (fun r => r.scrapeOrder) = List.range recs.length) :
    (leftJoinCounty ref (normalizeCityCol recs)).map (fun m => m.scrapeOrder) =
        List.range recs.length
    ∧ processCred cred ref recs =
        credFilter cred (leftJoinCounty ref (normalizeCityCol recs))
    ∧ ((processCred cred ref recs).map (fun m => m.scrapeOrder)).Pairwise
        (· < ·) := by
  have h2 : (leftJoinCounty ref (normalizeCityCol recs)).map
      (fun m => m.scrapeOrder) = List.range recs.length := by
    rw [leftJoinCounty_eq_map ref _ hnd]
    unfold normalizeCityCol
    rw [List.map_map, List.map_map]
    exact h1
  have hpair_merged : ((leftJoinCounty ref (normalizeCityCol recs)).map
      (fun m => m.scrapeOrder)).Pairwise (· < ·) := by
    rw [h2]
    exact List.pairwise_lt_range _
  have h4 : ((credFilter cred (leftJoinCounty ref
      (normalizeCityCol recs))).map (fun m => m.scrapeOrder)).Pairwise
      (· < ·) :=
    List.Pairwise.sublist (List.Sublist.map _ (List.filter_sublist _))
      hpair_merged
  have hsorted : (credFilter cred (leftJoinCounty ref
      (normalizeCityCol recs))).Pairwise
      (fun a b => a.scrapeOrder ≤ b.scrapeOrder) :=
    (List.pairwise_map.mp h4).imp (fun h => Nat.le_of_lt h)
  have h3 : processCred cred ref recs =
      credFilter cred (leftJoinCounty ref (normalizeCityCol recs)) := by
    unfold processCred
    exact sortByOrder_sorted_eq _ hsorted
  refine ⟨h2, h3, ?_⟩
  rw [h3]
  exact h4

/-! ## Helper lemmas: the worker trace under a nonempty reference -/

theorem worker_events_decomp (env : Env)
    (href : getCityCountyDf env.refRaw ≠ []) :
    (scrapeWorker env).events =
      Event.logLine "--- Starting Combined Scrape for CRS, CFRS, CRSS ---" ::
        ((credStep env (getCityCountyDf env.refRaw) 0 "CRS").2 ++
          ((credStep env (getCityCountyDf env.refRaw) 1 "CFRS").2 ++
            ((credStep env (getCityCountyDf env.refRaw) 2 "CRSS").2 ++ []))) := by
  unfold scrapeWorker
  rw [if_neg (by simpa [List.isEmpty_iff] using href)]
  rfl

theorem credStep_events_nonempty (env : Env) (ref : List (String × String))
    (idx : Nat) (cred : String)
    (hne : (scrapeWebsite (baseUrlOf cred) cred (env.totalPages cred)
      (env.fetch cred)).1 ≠ [])
    (hidx : idx < CREDENTIALS.length - 1) :
    (credStep env ref idx cred).2 =
      (Event.logLine ("=== Scraping credential: " ++ cred ++ " (" ++
          toString (idx + 1) ++ "/3) ===") ::
        (scrapeWebsite (baseUrlOf cred) cred (env.totalPages cred)
          (env.fetch cred)).2) ++
      [Event.logLine ("⏳ Waiting " ++ toString DELAY_BETWEEN_CREDENTIALS ++
          "s before next credential scrape..."),
        Event.sleep DELAY_BETWEEN_CREDENTIALS] := by
  unfold credStep
  rw [if_neg (by simpa [List.isEmpty_iff] using hne), if_pos hidx]

/-! ## Helper lemma: emitted records carry the row's normalized city -/

theorem parseCertRows_city (name city : String) :
    ∀ (crs : List (List String)) (i : Nat) (r : Record),
      r ∈ (parseCertRows name city crs i).1 → r.city = city := by
  intro crs
  induction crs with
  | nil =>
    intro i r hr
    simp [parseCertRows] at hr
  | cons cells rest ih =>
    intro i r hr
    cases h : asFiveCells cells with
    | none =>
      simp only [parseCertRows, h] at hr
      exact ih i r hr
    | some t =>
      obtain ⟨cr, nu, iss, ex, st⟩ := t
      simp only [parseCertRows, h, List.mem_cons] at hr
      rcases hr with he | hm
      · rw [he]
      · exact ih (i + 1) r hm

/-! ## Claim theorems -/

/-- C1 (counterexample): the claim's concrete anchors are false on the
code.  `build_report_summary` (line 179) computes
`datetime(now.year-1, 7, 1)` when `now.month >= 7` and
`datetime(now.year-2, 7, 1)` otherwise, so `now` = 2024-06-15 yields
window start 2022-07-01 (not 2023-07-01) and `now` = 2024-07-01 yields
2023-07-01 (not 2024-07-01). -/
theorem C1_counterexample :
    first_month 2024 6 ≠ (2023, 7) ∧ first_month 2024 7 ≠ (2024, 7) ∧
      first_month 2024 6 = (2022, 7) ∧ first_month 2024 7 = (2023, 7) := by
  decide

/-- C1 (amended): the window start is July 1 of the *prior* year when
`now.month ≥ 7` and July 1 of *two years prior* otherwise
(2024-06-15 ⇒ 2022-07-01, 2024-07-01 ⇒ 2023-07-01), and the window
enumerates exactly one entry per month from `now`'s month backward to that
start inclusive: entry `k` of the list is `now` minus `k` months, the head
is `now`'s month, and the last entry is the window start. -/
theorem C1_month_window (y m : Int) (h1 : 1 ≤ m) (h2 : m ≤ 12) :
    monthsList y m =
      (List.range
          ((monthIndex (y, m) - monthIndex (first_month y m)).toNat + 1)).map
        (fun k => prevIter k (y, m))
    ∧ (monthsList y m).head? = some (y, m)
    ∧ (monthsList y m).getLast? = some (first_month y m)
    ∧ first_month 2024 6 = (2022, 7) ∧ first_month 2024 7 = (2023, 7) := by
  have hfst := first_month_snd y m
  have hle := monthIndex_first_le y m h1
  have hfuel :
      (monthIndex (y, m) + 1 - monthIndex (first_month y m)).toNat =
        (monthIndex (y, m) - monthIndex (first_month y m)).toNat + 1 := by
    omega
  have hmain : monthsList y m =
      (List.range
          ((monthIndex (y, m) - monthIndex (first_month y m)).toNat + 1)).map
        (fun k => prevIter k (y, m)) := by
    unfold monthsList
    rw [monthsLoop_eq (first_month y m) (by omega) (by omega) _ (y, m) h1 h2
      rfl, hfuel]
  refine ⟨hmain, ?_, ?_, by decide, by decide⟩
  · rw [hmain, List.range_succ_eq_map]
    rfl
  · rw [hmain, List.range_succ, List.map_append]
    simp only [List.map_cons, List.map_nil]
    rw [List.getLast?_concat]
    have hidx := monthIndex_prevIter
      ((monthIndex (y, m) - monthIndex (first_month y m)).toNat) (y, m)
    have hrange := prevIter_range
      ((monthIndex (y, m) - monthIndex (first_month y m)).toNat) (y, m) h1 h2
    have hD : (((monthIndex (y, m) -
        monthIndex (first_month y m)).toNat : Int)) =
        monthIndex (y, m) - monthIndex (first_month y m) :=
      Int.toNat_of_nonneg (by omega)
    have heq := monthIndex_inj _ _ hrange.1 hrange.2
      (by rw [first_month_snd y m]; omega)
      (by rw [first_month_snd y m]; omega)
      (by rw [hidx]; omega)
    rw [heq]

theorem C1_month_window_witness :
    (monthsList 2024 7).head? = some ((2024 : Int), (7 : Int))
    ∧ (monthsList 2024 7).getLast? = some (first_month 2024 7) :=
  ⟨(C1_month_window 2024 7 (by decide) (by decide)).2.1,
    (C1_month_window 2024 7 (by decide) (by decide)).2.2.1⟩

/-- C2: every record surviving a category's merge+filter pipeline has the
category code as a case-sensitive contiguous substring of its credential
field, and no record lacking that substring survives
(`df[df['CREDENTIAL'].str.contains(cred, na=False)]`, line 647). -/
theorem C2_category_purity (cred : String) (ref : List (String × String))
    (recs : List Record) (m : MRecord) :
    (m ∈ processCred cred ref recs → cred.data <:+: m.credential.data)
    ∧ (¬ cred.data <:+: m.credential.data →
        m ∉ processCred cred ref recs) := by
  constructor
  · intro hm
    have hmem := (mem_processCred_iff cred ref recs m).mp hm
    have hsub := (List.mem_filter.mp hmem).2
    exact (containsSub_iff cred.data m.credential.data).mp hsub
  · intro hno hm
    have hmem := (mem_processCred_iff cred ref recs m).mp hm
    have hsub := (List.mem_filter.mp hmem).2
    exact hno ((containsSub_iff cred.data m.credential.data).mp hsub)

theorem C2_category_purity_witness :
    "CRS".data <:+:
      (MRecord.mk 0 "A" "x" "CRS" "1" "i" "e" "s" none).credential.data :=
  (C2_category_purity "CRS" [] [⟨0, "A", "x", "CRS", "1", "i", "e", "s"⟩]
    ⟨0, "A", "x", "CRS", "1", "i", "e", "s", none⟩).1 (by decide)

/-- C3: with a duplicate-free reference, the merge step produces exactly
one output row per input row in input order (no record is dropped),
attaching `some` of the mapping's county for the record's normalized
(trimmed, lowercased) city when that key is present and `none` otherwise;
the key depends only on the normalized form, so original casing and
whitespace are irrelevant. -/
theorem C3_join_correctness (ref : List (String × String))
    (recs : List Record) (hnd : (ref.map Prod.fst).Nodup) :
    leftJoinCounty ref (normalizeCityCol recs) =
      recs.map (fun r =>
        withCounty { r with city := refCityNorm r.city }
          (lookupCounty ref (refCityNorm r.city)))
    ∧ (∀ k c : String, (k, c) ∈ ref → lookupCounty ref k = some c)
    ∧ (∀ k : String, (∀ c : String, (k, c) ∉ ref) →
        lookupCounty ref k = none) := by
  refine ⟨?_, fun k c hm => lookupCounty_some ref k c hnd hm,
    fun k h => lookupCounty_none ref k h⟩
  rw [leftJoinCounty_eq_map ref _ hnd]
  unfold normalizeCityCol
  rw [List.map_map]
  rfl

theorem C3_join_correctness_witness :
    lookupCounty [("philadelphia", "Philadelphia")] "philadelphia" =
      some "Philadelphia" :=
  (C3_join_correctness [("philadelphia", "Philadelphia")] []
    (by decide)).2.1 "philadelphia" "Philadelphia" (by decide)

/-- C5: when the city-county reference loads empty (failure or empty CSV),
`scrape_worker` emits the abort log and the `done((None, None))` signal
without fetching a single page — no category scrape, merge, or export
happens and every category ends with no data. -/
theorem C5_empty_reference_aborts (env : Env)
    (h : getCityCountyDf env.refRaw = []) :
    (scrapeWorker env).result = none
    ∧ (scrapeWorker env).events =
        [Event.logLine "--- Starting Combined Scrape for CRS, CFRS, CRSS ---",
          Event.logLine "❌ City-county data is required. Exiting."]
    ∧ ∀ (tag : String) (page : Nat),
        Event.pageFetch tag page ∉ (scrapeWorker env).events := by
  have hw : scrapeWorker env =
      ⟨none,
        [Event.logLine "--- Starting Combined Scrape for CRS, CFRS, CRSS ---",
          Event.logLine "❌ City-county data is required. Exiting."]⟩ := by
    unfold scrapeWorker
    rw [if_pos (by rw [h]; rfl)]
  refine ⟨by rw [hw], by rw [hw], ?_⟩
  intro tag page hmem
  rw [hw] at hmem
  simp at hmem

theorem C5_empty_reference_aborts_witness :
    (scrapeWorker envRefFail).result = none :=
  (C5_empty_reference_aborts envRefFail rfl).1

/-- C8: a record whose issue (resp. expiration) date fails to parse
(`pd.to_datetime(..., errors="coerce")` makes it NaT) is counted in no
month's issued (resp. expired) bucket — adding such a record changes no
bucket count — while it still adds one to the unfiltered total
(`len(dff)`); the computation is total, so no exception arises, and no
default date is ever substituted. -/
theorem C8_malformed_dates (parse : String → Option (Int × Int))
    (recs : List MRecord) (r : MRecord) (hIss : parse r.issueDate = none) :
    (∀ ym : Int × Int,
        countIssuedIn parse (r :: recs) ym = countIssuedIn parse recs ym)
    ∧ (parse r.expDate = none → ∀ ym : Int × Int,
        countExpiredIn parse (r :: recs) ym = countExpiredIn parse recs ym)
    ∧ totalCount (r :: recs) = totalCount recs + 1 := by
  refine ⟨?_, ?_, rfl⟩
  · intro ym
    unfold countIssuedIn
    rw [List.filter_cons_of_neg (by simp [hIss])]
  · intro hExp ym
    unfold countExpiredIn
    rw [List.filter_cons_of_neg (by simp [hExp])]

theorem C8_malformed_dates_witness :
    countIssuedIn (fun _ => none)
        [MRecord.mk 0 "A" "x" "CRS" "1" "bad" "bad" "s" none] (2024, 1) =
      countIssuedIn (fun _ => none) [] (2024, 1) :=
  (C8_malformed_dates (fun _ => none) []
    ⟨0, "A", "x", "CRS", "1", "bad", "bad", "s", none⟩ rfl).1 (2024, 1)

/-- C9: category datasets are not mutually exclusive: "CRS" is a
contiguous substring of "CRSS" but not of "CFRS", so a record whose
credential field reads "CRSS" survives the CRS category filter and appears
in the CRS dataset, while a "CFRS" record does not. -/
theorem C9_crss_passes_crs_filter :
    "CRS".data <:+: "CRSS".data
    ∧ ¬ "CRS".data <:+: "CFRS".data
    ∧ (⟨0, "A", "x", "CRSS", "1", "i", "e", "s", none⟩ : MRecord) ∈
        processCred "CRS" [("phila", "Philadelphia")]
          [⟨0, "A", "x", "CRSS", "1", "i", "e", "s"⟩,
            ⟨1, "B", "y", "CFRS", "2", "i2", "e2", "s2"⟩]
    ∧ (⟨1, "B", "y", "CFRS", "2", "i2", "e2", "s2", none⟩ : MRecord) ∉
        processCred "CRS" [("phila", "Philadelphia")]
          [⟨0, "A", "x", "CRSS", "1", "i", "e", "s"⟩,
            ⟨1, "B", "y", "CFRS", "2", "i2", "e2", "s2"⟩] := by
  refine ⟨(containsSub_iff _ _).mp (by decide),
    fun h => absurd ((containsSub_iff _ _).mpr h) (by decide), ?_, ?_⟩
  · decide
  · decide

/-- C7 (counterexample): the claim fails on the code for a category that
yields zero records.  In `envNoData` the reference loads but every page
fetch fails, so CRS — not the last category — yields zero records ("No
data found for CRS" is logged); the `continue` at line 642 skips the
cooldown block (lines 654-656), so no 10-second sleep occurs anywhere in
the run, contradicting "including when the category yielded zero
records". -/
theorem C7_counterexample :
    Event.logLine "⚠️ No data found for CRS" ∈ (scrapeWorker envNoData).events
    ∧ CREDENTIALS.length = 3
    ∧ Event.sleep DELAY_BETWEEN_CREDENTIALS ∉
        (scrapeWorker envNoData).events := by
  decide

/-- C7 (amended): for every category except the last in the declared order
*whose raw scrape yields at least one record*, the fixed 10-second
cooldown sleep occurs after that category's processing completes and
before the next category's scrape begins: the trace splits around a
`sleep 10` event with every page fetch of categories up to and including
category `i` before it and every page fetch of later categories after it.
A category yielding zero records proceeds to the next category without
the cooldown. -/
theorem C7_cooldown_between_categories (env : Env) (i : Nat)
    (hi : i < CREDENTIALS.length - 1)
    (href : getCityCountyDf env.refRaw ≠ [])
    (hne : (scrapeWebsite (baseUrlOf (CREDENTIALS.getD i ""))
        (CREDENTIALS.getD i "") (env.totalPages (CREDENTIALS.getD i ""))
        (env.fetch (CREDENTIALS.getD i ""))).1 ≠ []) :
    ∃ pre post : List Event,
      (scrapeWorker env).events =
        pre ++ Event.sleep DELAY_BETWEEN_CREDENTIALS :: post
      ∧ (∀ (c : String) (q : Nat),
          Event.pageFetch c q ∈ pre → CREDENTIALS.indexOf c ≤ i)
      ∧ (∀ (c : String) (q : Nat),
          Event.pageFetch c q ∈ post → i < CREDENTIALS.indexOf c) := by
  have hdecomp := worker_events_decomp env href
  have hi2 : i < 2 := hi
  interval_cases i
  · have hT0 := credStep_events_nonempty env (getCityCountyDf env.refRaw) 0
      "CRS" hne (by decide)
    refine ⟨Event.logLine
        "--- Starting Combined Scrape for CRS, CFRS, CRSS ---" ::
        ((Event.logLine ("=== Scraping credential: " ++ "CRS" ++ " (" ++
            toString (0 + 1) ++ "/3) ===") ::
          (scrapeWebsite (baseUrlOf "CRS") "CRS" (env.totalPages "CRS")
            (env.fetch "CRS")).2) ++
          [Event.logLine ("⏳ Waiting " ++
            toString DELAY_BETWEEN_CREDENTIALS ++
            "s before next credential scrape...")]),
      (credStep env (getCityCountyDf env.refRaw) 1 "CFRS").2 ++
        ((credStep env (getCityCountyDf env.refRaw) 2 "CRSS").2 ++ []),
      ?_, ?_, ?_⟩
    · rw [hdecomp, hT0]
      simp [List.append_assoc]
    · intro c q hmem
      rcases List.mem_cons.mp hmem with h | h
      · exact Event.noConfusion h
      rcases List.mem_append.mp h with h2 | h2
      · rcases List.mem_cons.mp h2 with h3 | h3
        · exact Event.noConfusion h3
        · have hc := scrapeWebsite_tag _ _ _ _ c q h3
          subst hc
          decide
      · rcases List.mem_cons.mp h2 with h3 | h3
        · exact Event.noConfusion h3
        · exact absurd h3 (List.not_mem_nil _)
    · intro c q hmem
      rcases List.mem_append.mp hmem with h | h
      · have hc := credStep_tag env (getCityCountyDf env.refRaw) 1 "CFRS"
          c q h
        subst hc
        decide
      rcases List.mem_append.mp h with h2 | h2
      · have hc := credStep_tag env (getCityCountyDf env.refRaw) 2 "CRSS"
          c q h2
        subst hc
        decide
      · exact absurd h2 (List.not_mem_nil _)
  · have hT1 := credStep_events_nonempty env (getCityCountyDf env.refRaw) 1
      "CFRS" hne (by decide)
    refine ⟨Event.logLine
        "--- Starting Combined Scrape for CRS, CFRS, CRSS ---" ::
        ((credStep env (getCityCountyDf env.refRaw) 0 "CRS").2 ++
          ((Event.logLine ("=== Scraping credential: " ++ "CFRS" ++ " (" ++
              toString (1 + 1) ++ "/3) ===") ::
            (scrapeWebsite (baseUrlOf "CFRS") "CFRS"
              (env.totalPages "CFRS") (env.fetch "CFRS")).2) ++
            [Event.logLine ("⏳ Waiting " ++
              toString DELAY_BETWEEN_CREDENTIALS ++
              "s before next credential scrape...")])),
      (credStep env (getCityCountyDf env.refRaw) 2 "CRSS").2 ++ [],
      ?_, ?_, ?_⟩
    · rw [hdecomp, hT1]
      simp [List.append_assoc]
    · intro c q hmem
      rcases List.mem_cons.mp hmem with h | h
      · exact Event.noConfusion h
      rcases List.mem_append.mp h with h2 | h2
      · have hc := credStep_tag env (getCityCountyDf env.refRaw) 0 "CRS"
          c q h2
        subst hc
        decide
      rcases List.mem_append.mp h2 with h3 | h3
      · rcases List.mem_cons.mp h3 with h4 | h4
        · exact Event.noConfusion h4
        · have hc := scrapeWebsite_tag _ _ _ _ c q h4
          subst hc
          decide
      · rcases List.mem_cons.mp h3 with h4 | h4
        · exact Event.noConfusion h4
        · exact absurd h4 (List.not_mem_nil _)
    · intro c q hmem
      rcases List.mem_append.mp hmem with h | h
      · have hc := credStep_tag env (getCityCountyDf env.refRaw) 2 "CRSS"
          c q h
        subst hc
        decide
      · exact absurd h (List.not_mem_nil _)

theorem C7_cooldown_between_categories_witness :
    ∃ pre post : List Event,
      (scrapeWorker envCooldown).events =
        pre ++ Event.sleep DELAY_BETWEEN_CREDENTIALS :: post
      ∧ (∀ (c : String) (q : Nat),
          Event.pageFetch c q ∈ pre → CREDENTIALS.indexOf c ≤ 0)
      ∧ (∀ (c : String) (q : Nat),
          Event.pageFetch c q ∈ post → 0 < CREDENTIALS.indexOf c) :=
  C7_cooldown_between_categories envCooldown 0 (by decide) (by decide)
    (by decide)

/-- C10: the scrape-time city normalization first removes the literal
substring ", PA", then strips and lowercases (line 100), so every record
parsed from a row carries that normalized city; "Philadelphia, PA"
becomes the join key "philadelphia", whereas the reference-side
normalization (strip+lower only, line 48) would give "philadelphia, pa" —
the two sides do not apply the same normalization. -/
theorem C10_scrape_city_strips_pa (c0 c1 c2 : Cell) (rest : List Cell)
    (i : Nat) (r : Record)
    (hr : r ∈ (parseRow (c0 :: c1 :: c2 :: rest) i).1) :
    r.city = strLower (strStrip (strReplace c1.text ", PA" ""))
    ∧ scrapeCityNorm "Philadelphia, PA" = "philadelphia"
    ∧ refCityNorm "Philadelphia, PA" = "philadelphia, pa"
    ∧ refCityNorm "Philadelphia, PA" ≠ scrapeCityNorm "Philadelphia, PA" := by
  refine ⟨?_, by decide, by decide, by decide⟩
  cases h : c2.certRows with
  | none =>
    simp only [parseRow, h] at hr
    simp at hr
  | some crs =>
    simp only [parseRow, h] at hr
    exact parseCertRows_city c0.text (scrapeCityNorm c1.text) crs i r hr

/-- C4 (counterexample): the claim fails for `scrape_pacert_data`, whose
`except ... break` (lines 24-26) terminates pagination on the first fetch
failure.  Concretely, with page 1 of 3 succeeding (one record for Alice),
the page 2 request failing, and page 3 parseable to one record for Bob,
the run returns only Alice's record: Bob's record from a later,
non-failing page is lost, contradicting "all records successfully parsed
from every other page are still returned". -/
theorem C4_counterexample :
    scrapePacertData pacertFetchCE 10 =
      [⟨"Alice", "Philadelphia, PA", "CRS", "1", "1/1/2020", "1/1/2022",
        "Active"⟩]
    ∧ ((pacertFetchCE 2).map
          (fun pg => pg.mainRows.flatMap pacertRowRecords)).getD []
        = [⟨"Bob", "Reading, PA", "CRS", "2", "2/1/2020", "2/1/2022",
            "Active"⟩]
    ∧ (⟨"Bob", "Reading, PA", "CRS", "2", "2/1/2020", "2/1/2022",
        "Active"⟩ : PRecord) ∉ scrapePacertData pacertFetchCE 10 := by
  decide

/-- C4 (amended): in `scrape_website` (both app variants) the claim holds:
a failed page contributes no records but does not abort the loop — the
run's record contents are exactly the concatenation of every page's
parsed content over pages 0..N-1, each non-failing page's content appears
contiguously in the output, and the failure log naming the page URL is
emitted.  In `scrape_pacert_data`, by contrast, a fetch failure breaks the
pagination loop and later pages are lost (see the counterexample). -/
theorem C4_page_failure_resilience (baseUrl tag : String) (N p : Nat)
    (fetch : Nat → Option (Option (List (List Cell))))
    (hp : p < N) (hf : fetch p = none) :
    (scrapeWebsite baseUrl tag N fetch).1.map Record.content =
      (List.range N).flatMap (fun q => pageContent (fetch q))
    ∧ pageContent (fetch p) = []
    ∧ Event.logLine ("⚠️ [" ++ tag ++ "] Failed to load " ++ baseUrl ++
        "&page=" ++ toString p) ∈ (scrapeWebsite baseUrl tag N fetch).2
    ∧ ∀ q : Nat, q < N →
        pageContent (fetch q) <:+:
          (scrapeWebsite baseUrl tag N fetch).1.map Record.content := by
  have hmap : (scrapeWebsite baseUrl tag N fetch).1.map Record.content =
      (List.range N).flatMap (fun q => pageContent (fetch q)) :=
    scrapeLoop_content baseUrl tag N fetch (List.range N) 0
  refine ⟨hmap, by rw [hf]; rfl, ?_, ?_⟩
  · exact scrapeLoop_failLog baseUrl tag N fetch (List.range N) 0 p
      (List.mem_range.mpr hp) hf
  · intro q hq
    rw [hmap]
    exact flatMap_piece_infix (fun q => pageContent (fetch q))
      (List.range N) q (List.mem_range.mpr hq)

theorem C4_page_failure_resilience_witness :
    pageContent (fetchPageZeroFails 0) = []
    ∧ Event.logLine ("⚠️ [" ++ "CRS" ++ "] Failed to load " ++
        baseUrlOf "CRS" ++ "&page=" ++ toString 0)
      ∈ (scrapeWebsite (baseUrlOf "CRS") "CRS" 2 fetchPageZeroFails).2 :=
  ⟨(C4_page_failure_resilience (baseUrlOf "CRS") "CRS" 2 0
      fetchPageZeroFails (by decide) (by decide)).2.1,
    (C4_page_failure_resilience (baseUrlOf "CRS") "CRS" 2 0
      fetchPageZeroFails (by decide) (by decide)).2.2.1⟩

/-- C6: within one category the scrape-order values are a single counter
shared across all pages — the emitted records' orders are exactly
`0, 1, 2, ...` in encounter order (pages ascending, rows ascending within
a page) — and, with a duplicate-free reference, the merge keeps that exact
numbering one-to-one, the substring filter only removes rows, and the
stable sort by scrape order is the identity on the already-sorted result,
whose orders remain strictly increasing. -/
theorem C6_order_preservation (baseUrl tag : String) (N : Nat)
    (fetch : Nat → Option (Option (List (List Cell)))) (cred : String)
    (ref : List (String × String)) (hnd : (ref.map Prod.fst).Nodup) :
    (scrapeWebsite baseUrl tag N fetch).1.map (fun r => r.scrapeOrder) =
      List.range (scrapeWebsite baseUrl tag N fetch).1.length
    ∧ (leftJoinCounty ref
        (normalizeCityCol (scrapeWebsite baseUrl tag N fetch).1)).map
        (fun mr => mr.scrapeOrder) =
      List.range (scrapeWebsite baseUrl tag N fetch).1.length
    ∧ processCred cred ref (scrapeWebsite baseUrl tag N fetch).1 =
        credFilter cred (leftJoinCounty ref
          (normalizeCityCol (scrapeWebsite baseUrl tag N fetch).1))
    ∧ ((processCred cred ref (scrapeWebsite baseUrl tag N fetch).1).map
        (fun mr => mr.scrapeOrder)).Pairwise (· < ·) := by
  have h1 := scrapeWebsite_orders baseUrl tag N fetch
  have hrest := processCred_preserves cred ref
    (scrapeWebsite baseUrl tag N fetch).1 hnd h1
  exact ⟨h1, hrest.1, hrest.2.1, hrest.2.2⟩

theorem C6_order_preservation_witness :
    (scrapeWebsite (baseUrlOf "CRS") "CRS" 2
        (fun _ => some (some samplePage))).1.map (fun r => r.scrapeOrder) =
      List.range (scrapeWebsite (baseUrlOf "CRS") "CRS" 2
        (fun _ => some (some samplePage))).1.length :=
  (C6_order_preservation (baseUrlOf "CRS") "CRS" 2
    (fun _ => some (some samplePage)) "CRS"
    [("philadelphia", "Philadelphia")] (by decide)).1

theorem C10_scrape_city_strips_pa_witness :
    (Record.mk 0 "Alice Smith" "philadelphia" "CRS" "12345" "1/1/2020"
        "1/1/2022" "Active").city =
      strLower (strStrip (strReplace "Philadelphia, PA" ", PA" "")) :=
  (C10_scrape_city_strips_pa ⟨"Alice Smith", none⟩ ⟨"Philadelphia, PA", none⟩
    ⟨"", some [["CRS", "12345", "1/1/2020", "1/1/2022", "Active"]]⟩ [] 0 _
    (by decide)).1

end PCB
